import Mathlib

/-
Verification of the paraphrasing pipeline in `paraphrase_ollama.py`.

The file shallowly embeds the program: cell values are an inductive `Value`
(string / numeric / NaN, mirroring the pandas cell types the script handles),
the SQLite cache is an association list keyed by the SHA-256 hex key that
`sha_key` computes (SHA-256 is implemented here over UTF-8 bytes, with 32-bit
words as `Nat` mod 2^32), the streaming HTTP client is a function of an
attempt-indexed environment describing what each HTTP attempt yields, and the
main batch loop is a fold over row indices.  Sleeps (throttle and backoff) do
not affect any data and are omitted.
-/

namespace Paraphrase

/-- Value of a spreadsheet cell as the script sees it: a Python `str`, a
numeric value (payload irrelevant to the logic, modelled as `Int`), or
NaN/absent. -/
inductive Value where
  | str (s : String)
  | num (n : Int)
  | nan
deriving DecidableEq, Repr

/-- Whitespace as Python `str.strip()` sees it (the ASCII whitespace
characters; the Unicode extras never matter here). -/
def py_isspace (c : Char) : Bool :=
  c == ' ' || c == '\t' || c == '\n' || c == '\r' || c == '\x0b' || c == '\x0c'

/-- Python `s.strip()`: drop leading and trailing whitespace. -/
def py_strip (s : String) : String :=
  String.mk (((s.data.dropWhile py_isspace).reverse.dropWhile py_isspace).reverse)

/-- Truncation to a 32-bit word, `n % 2^32`. -/
def w32 (n : Nat) : Nat := n % 4294967296

/-- Right rotation of a 32-bit word by `k` bits. -/
def rotr32 (k x : Nat) : Nat := (x >>> k) ||| w32 (x <<< (32 - k))

/-- SHA-256 big sigma-0 function. -/
def bigSigma0 (x : Nat) : Nat := (rotr32 2 x) ^^^ (rotr32 13 x) ^^^ (rotr32 22 x)

/-- SHA-256 big sigma-1 function. -/
def bigSigma1 (x : Nat) : Nat := (rotr32 6 x) ^^^ (rotr32 11 x) ^^^ (rotr32 25 x)

/-- SHA-256 small sigma-0 function. -/
def smallSigma0 (x : Nat) : Nat := (rotr32 7 x) ^^^ (rotr32 18 x) ^^^ (x >>> 3)

/-- SHA-256 small sigma-1 function. -/
def smallSigma1 (x : Nat) : Nat := (rotr32 17 x) ^^^ (rotr32 19 x) ^^^ (x >>> 10)

/-- SHA-256 choice function; the complement is within 32 bits. -/
def chF (x y z : Nat) : Nat := (x &&& y) ^^^ ((x ^^^ 4294967295) &&& z)

/-- SHA-256 majority function. -/
def majF (x y z : Nat) : Nat := (x &&& y) ^^^ (x &&& z) ^^^ (y &&& z)

/-- The 64 SHA-256 round constants (the fractional parts of the cube roots
of the first 64 primes, FIPS 180-4, written in decimal). -/
def K64 : List Nat :=
  [1116352408, 1899447441, 3049323471, 3921009573, 961987163,
   1508970993, 2453635748, 2870763221, 3624381080, 310598401,
   607225278, 1426881987, 1925078388, 2162078206, 2614888103,
   3248222580, 3835390401, 4022224774, 264347078, 604807628,
   770255983, 1249150122, 1555081692, 1996064986, 2554220882,
   2821834349, 2952996808, 3210313671, 3336571891, 3584528711,
   113926993, 338241895, 666307205, 773529912, 1294757372,
   1396182291, 1695183700, 1986661051, 2177026350, 2456956037,
   2730485921, 2820302411, 3259730800, 3345764771, 3516065817,
   3600352804, 4094571909, 275423344, 430227734, 506948616,
   659060556, 883997877, 958139571, 1322822218, 1537002063,
   1747873779, 1955562222, 2024104815, 2227730452, 2361852424,
   2428436474, 2756734187, 3204031479, 3329325298]

/-- The 8 initial SHA-256 hash words (FIPS 180-4, written in decimal). -/
def sha256H0 : List Nat :=
  [1779033703, 3144134277, 1013904242, 2773480762, 1359893119,
   2600822924, 528734635, 1541459225]

/-- Split a list into chunks of `n` elements, fuel-based so that the
definition is structurally recursive; `chunksOf` supplies fuel `l.length`,
which suffices whenever `n > 0`. -/
def chunksOfAux (n : Nat) : Nat → List α → List (List α)
  | 0, _ => []
  | _, [] => []
  | fuel + 1, x :: xs => ((x :: xs).take n) :: chunksOfAux n fuel ((x :: xs).drop n)

/-- Split a list into consecutive chunks of `n` elements. -/
def chunksOf (n : Nat) (l : List α) : List (List α) := chunksOfAux n l.length l

/-- One step extending the SHA-256 message schedule by a word. -/
def scheduleExtend (ws : List Nat) : List Nat :=
  let i := ws.length
  ws ++ [w32 (smallSigma1 (ws.getD (i - 2) 0) + ws.getD (i - 7) 0 +
              smallSigma0 (ws.getD (i - 15) 0) + ws.getD (i - 16) 0)]

/-- One SHA-256 compression round, acting on the 8-word working state. -/
def compressStep (st : List Nat) (kw : Nat × Nat) : List Nat :=
  match st with
  | [a, b, c, d, e, f, g, hh] =>
    let t1 := w32 (hh + bigSigma1 e + chF e f g + kw.1 + kw.2)
    let t2 := w32 (bigSigma0 a + majF a b c)
    [w32 (t1 + t2), a, b, c, w32 (d + t1), e, f, g]
  | other => other

/-- Big-endian byte decomposition of `n` into `k` bytes. -/
def beBytes (k n : Nat) : List Nat :=
  (List.range k).map (fun i => (n >>> (8 * (k - 1 - i))) &&& 255)

/-- Big-endian interpretation of a byte list as a word. -/
def bytesToWord (b : List Nat) : Nat := b.foldl (fun acc x => acc * 256 + x) 0

/-- SHA-256 message padding: append `0x80`, zero bytes up to 56 mod 64, and
the 8-byte big-endian bit length. -/
def sha256Pad (msg : List Nat) : List Nat :=
  msg ++ [128] ++ List.replicate ((119 - msg.length % 64) % 64) 0 ++ beBytes 8 (8 * msg.length)

/-- Process one 64-byte block into the running 8-word hash state. -/
def sha256Compress (h : List Nat) (block : List Nat) : List Nat :=
  let ws16 := (chunksOf 4 block).map bytesToWord
  let ws := scheduleExtend^[48] ws16
  let st := (K64.zip ws).foldl compressStep h
  (h.zip st).map (fun p => w32 (p.1 + p.2))

/-- SHA-256 of a byte list, as the 8 final hash words. -/
def sha256Words (msg : List Nat) : List Nat :=
  (chunksOf 64 (sha256Pad msg)).foldl sha256Compress sha256H0

/-- Lowercase hexadecimal digit for `n < 16`. -/
def hexDigitChar (n : Nat) : Char := if n < 10 then Char.ofNat (48 + n) else Char.ofNat (87 + n)

/-- Eight lowercase hex digits of a 32-bit word, most significant first. -/
def wordToHex (w : Nat) : List Char :=
  (List.range 8).map (fun i => hexDigitChar ((w >>> (28 - 4 * i)) &&& 15))

/-- SHA-256 of a byte list as a 64-character lowercase hex string, matching
Python `hashlib.sha256(...).hexdigest()`. -/
def sha256Hex (msg : List Nat) : String := String.mk ((sha256Words msg).map wordToHex).flatten

/-- UTF-8 encoding of a single character. -/
def utf8EncodeChar (c : Char) : List Nat :=
  let n := c.toNat
  if n < 128 then [n]
  else if n < 2048 then [192 ||| (n >>> 6), 128 ||| (n &&& 63)]
  else if n < 65536 then
    [224 ||| (n >>> 12), 128 ||| ((n >>> 6) &&& 63), 128 ||| (n &&& 63)]
  else
    [240 ||| (n >>> 18), 128 ||| ((n >>> 12) &&& 63), 128 ||| ((n >>> 6) &&& 63), 128 ||| (n &&& 63)]

/-- UTF-8 encoding of a string, matching Python `s.encode("utf-8")`. -/
def utf8Bytes (s : String) : List Nat := (s.data.map utf8EncodeChar).flatten

/-- The labeled pre-hash string that `sha_key` feeds to SHA-256:
`"COL:" + col + "\nTEXT:" + text`. -/
def sha_key_input (col text : String) : String := "COL:" ++ col ++ "\nTEXT:" ++ text

/-- The cache key: the SHA-256 hex digest of the labeled representation of
`(col, text)`, as in the script's `sha_key`. -/
def sha_key (col text : String) : String := sha256Hex (utf8Bytes (sha_key_input col text))

/-- One row of the SQLite `cache` table: `(id, col, input, output)` with
primary key `id`. -/
structure CacheRow where
  id : String
  col : String
  input : String
  output : String
deriving DecidableEq, Repr

/-- The SQLite cache contents.  `INSERT OR REPLACE` keeps at most one row per
`id`; the list holds the rows, most recently written first. -/
abbrev CacheStore := List CacheRow

/-- The `SELECT output FROM cache WHERE id=?` query: the stored output for a
key, if a row with that primary key exists. -/
def cache_lookup (store : CacheStore) (k : String) : Option String :=
  (store.find? (fun r => r.id == k)).map (fun r => r.output)

/-- Body of `cache_get` after its guard: fetch the row for `sha_key col s`
and return its output, or `""` when no row exists (the script's
`row[0] if row and isinstance(row[0], str) else ""`; stored outputs are
always strings here, as `cache_put` only ever receives strings). -/
def cache_get_str (store : CacheStore) (col s : String) : String :=
  match cache_lookup store (sha_key col s) with
  | some out => out
  | none => ""

/-- The script's `cache_get`: non-string or whitespace-only `text` is
returned unchanged without touching the store; otherwise the stored output
for the pair's key, or `""` when absent. -/
def cache_get (store : CacheStore) (col : String) (text : Value) : Value :=
  match text with
  | Value.str s => if py_strip s == "" then Value.str s else Value.str (cache_get_str store col s)
  | v => v

/-- The script's `cache_put`: `INSERT OR REPLACE` of
`(sha_key col text, col, text, output)`. -/
def cache_put (store : CacheStore) (col text output : String) : CacheStore :=
  let k := sha_key col text
  { id := k, col := col, input := text, output := output } :: store.filter (fun r => r.id != k)

/-- The configured list of target column names, `FIELDS_TO_PARAPHRASE`. -/
def FIELDS_TO_PARAPHRASE : List String :=
  ["Introduction", "Uses", "Benefits", "Side Effects",
   "Most Common Side Effects", "Common Side Effects",
   "How to Use", "How it Works", "Safety Advice"]

/-- The column-specific prompt templates, `PROMPTS` (the `\x7b\x7d` escapes
spell the template's substitution braces). -/
def PROMPTS : List (String × String) :=
  [("Introduction", "Paraphrase the medical introduction below, rewording it to be unique and plagiarism-free, but keep it concise, accurate, and ready for patient education. Do not include introductions, explanations, or formatting—just the rewritten text:\n\n\x7b\x7d"),
   ("Uses", "Paraphrase the \x27Uses\x27 section below as unique, plagiarism-free medical guidance. Only return text usable in production—skip all explanations or introductions:\n\n\x7b\x7d"),
   ("Benefits", "Paraphrase the \x27Benefits\x27 info below in a concise, factual, and production-friendly way. No explanation—just reword and return improved content:\n\n\x7b\x7d"),
   ("Side Effects", "Paraphrase the \x27Side Effects\x27 section so that it is unique, clear, and suitable for direct publication. Return only the main body content:\n\n\x7b\x7d"),
   ("Most Common Side Effects", "Paraphrase the \x27Most Common Side Effects\x27 info below for a patient handout. No descriptions, options, or meta explanation—just the final result:\n\n\x7b\x7d"),
   ("Common Side Effects", "Rewrite the \x27Common Side Effects\x27 text below as a unique, high-quality summary suitable for direct use on a medical information page. No headers or extra text, just the paraphrased result:\n\n\x7b\x7d"),
   ("How to Use", "Paraphrase the \x27How to Use\x27 instructions for a medicine in clear, direct, and production-ready language with no extra explanation:\n\n\x7b\x7d"),
   ("How it Works", "Paraphrase the medical \x27How it Works\x27 details into unique, publication-ready prose suitable for patient education. Return only the text, no headers or disclaimers:\n\n\x7b\x7d"),
   ("Safety Advice", "Rewrite the \x27Safety Advice\x27 below in a unique and plagiarism-free way suitable for production, omitting any extra headers or prefatory comments:\n\n\x7b\x7d")]

/-- The generic fallback template, `DEFAULT_PROMPT`. -/
def DEFAULT_PROMPT : String :=
  "Paraphrase clearly for direct publication, omit explanation or formatting:\n\n\x7b\x7d"

/-- Prompt construction in `paraphrase_field`: pick the column's template
(falling back to `DEFAULT_PROMPT`) and substitute the text for the template's
brace placeholder, as Python `.format(text)` does (each template contains
exactly one placeholder). -/
def prompt_for (col : String) (text : String) : String :=
  (((PROMPTS.find? (fun p => p.1 == col)).map (fun p => p.2)).getD DEFAULT_PROMPT).replace
    "\x7b\x7d" text

/-- A JSON value as far as the stream loop inspects one: a string, a boolean,
or anything else. -/
inductive JVal where
  | jstr (s : String)
  | jbool (b : Bool)
  | jother
deriving DecidableEq, Repr

/-- One parsed stream chunk object: its optional `response` and `done`
fields (a missing key makes `data.get` return its default). -/
structure ChunkObj where
  response : Option JVal
  done : Option JVal
deriving DecidableEq, Repr

/-- One line of the streamed HTTP body: falsy/empty, undecodable JSON, or a
parsed chunk object. -/
inductive StreamLine where
  | emptyLine
  | malformed
  | chunk (c : ChunkObj)
deriving DecidableEq, Repr

/-- What one HTTP attempt yields: an exception from the transport, an
exception from `raise_for_status` on an HTTP error status, or a completed
stream of lines. -/
inductive AttemptResult where
  | transportErr
  | httpErr (status : Nat)
  | stream (lines : List StreamLine)

/-- The stream-assembly loop of `ollama_generate_http`: skip falsy lines and
JSON decode errors, append each string `response` fragment (a missing
`response` key contributes the default `""`), and stop when a chunk's `done`
field is exactly `True`. -/
def collect_parts : List StreamLine → List String → List String
  | [], parts => parts
  | l :: rest, parts =>
    match l with
    | StreamLine.emptyLine => collect_parts rest parts
    | StreamLine.malformed => collect_parts rest parts
    | StreamLine.chunk c =>
      let parts2 := match c.response with
        | none => parts ++ [""]
        | some (JVal.jstr s) => parts ++ [s]
        | some _ => parts
      if c.done = some (JVal.jbool true) then parts2
      else collect_parts rest parts2

/-- The text one attempt produces: `none` when the attempt raised, otherwise
the concatenated fragments, trimmed. -/
def attempt_text : AttemptResult → Option String
  | AttemptResult.transportErr => none
  | AttemptResult.httpErr _ => none
  | AttemptResult.stream lines => some (py_strip (String.join (collect_parts lines [])))

/-- An attempt is retried exactly when it raised or its accumulated text is
empty. -/
def attempt_fails (a : AttemptResult) : Bool :=
  match attempt_text a with
  | none => true
  | some t => t == ""

/-- The script's `MAX_RETRIES` constant. -/
def MAX_RETRIES : Nat := 6

/-- The retry loop of `ollama_generate_http`, started at attempt index `i`
with `fuel` attempts left: return the first non-empty trimmed text together
with the index after the last attempt made, or `("", i)` once attempts are
exhausted.  The backoff sleeps between attempts carry no data and are
omitted. -/
def gen_run_from (env : Nat → AttemptResult) : Nat → Nat → String × Nat
  | i, 0 => ("", i)
  | i, fuel + 1 =>
    match attempt_text (env i) with
    | some t => if t == "" then gen_run_from env (i + 1) fuel else (t, i + 1)
    | none => gen_run_from env (i + 1) fuel

/-- The whole of `ollama_generate_http` over an attempt environment: the
returned text and the number of attempts consumed. -/
def gen_run (env : Nat → AttemptResult) : String × Nat := gen_run_from env 0 MAX_RETRIES

/-- The text `ollama_generate_http` returns to its caller. -/
def ollama_generate_http (env : Nat → AttemptResult) : String := (gen_run env).1

/-- State threaded through the field transformer: the cache contents plus a
count of generation-client invocations (for stating cost properties). -/
structure PFState where
  store : CacheStore
  genCalls : Nat
deriving DecidableEq, Repr

/-- The script's `paraphrase_field`: skip non-strings and whitespace-only
strings; return a non-empty cached output; otherwise call the generation
client (`gen` maps the built prompt to the client's returned text), fall back
to the original text when the result trims to empty, cache the final text and
return it.  The throttle sleep carries no data and is omitted. -/
def paraphrase_field (gen : String → String) (st : PFState) (text : Value) (col : String) :
    Value × PFState :=
  match text with
  | Value.str s =>
    if py_strip s == "" then (Value.str s, st)
    else
      let cached := cache_get_str st.store col s
      if cached != "" then (Value.str cached, st)
      else
        let prompt := prompt_for col s
        let paraphrased := gen prompt
        let final_text := if py_strip paraphrased != "" then paraphrased else s
        (Value.str final_text,
          { store := cache_put st.store col s final_text, genCalls := st.genCalls + 1 })
  | v => (v, st)

/-- The in-memory table: a header (column names, in order) and the rows, each
row a list of cell values aligned with the header. -/
structure Table where
  cols : List String
  rows : List (List Value)
deriving DecidableEq, Repr

/-- Well-formedness of a table: every row has exactly one cell per column. -/
def table_wf (t : Table) : Prop := ∀ r ∈ t.rows, r.length = t.cols.length

/-- Cell of a snapshot row under a column name (the `row[col]` read). -/
def row_value (cols : List String) (row : List Value) (c : String) : Value :=
  match cols.findIdx? (fun c2 => c2 == c) with
  | some j => row.getD j Value.nan
  | none => Value.nan

/-- Cell read `df.at[i, col]`. -/
def table_at (t : Table) (i : Nat) (c : String) : Value :=
  row_value t.cols (t.rows.getD i []) c

/-- Cell write `df.at[i, col] = v`. -/
def table_set (t : Table) (i : Nat) (c : String) (v : Value) : Table :=
  match t.cols.findIdx? (fun c2 => c2 == c) with
  | some j => { t with rows := t.rows.set i ((t.rows.getD i []).set j v) }
  | none => t

/-- Python `set(a) == set(b)` on column headers. -/
def same_col_set (a b : List String) : Bool :=
  a.all (fun c => b.contains c) && b.all (fun c => a.contains c)

/-- The checkpoint-resume step of `main`: `ckpt` is `none` when no checkpoint
file exists, `some (Except.error ())` when reading it raised, and
`some (Except.ok c)` when it loaded table `c`; the checkpoint is adopted
exactly when its column set and row count match the freshly loaded input
table, and is otherwise ignored. -/
def adopt_checkpoint (df : Table) (ckpt : Option (Except Unit Table)) : Table :=
  match ckpt with
  | some (Except.ok c) =>
    if same_col_set c.cols df.cols && c.rows.length == df.rows.length then c else df
  | _ => df

/-- The remaining-work list computed at startup:
`[i for i in range(total_rows) if i not in processed_rows]`. -/
def remaining_indices (total : Nat) (processed : List Nat) : List Nat :=
  (List.range total).filter (fun i => ! processed.contains i)

/-- The script's `BATCH_SIZE` constant. -/
def BATCH_SIZE : Nat := 200

/-- Environment of a run: the generation client's effective result per
prompt, and whether transforming cell `(i, col)` raises an exception (the
SQLite layer may raise; `ollama_generate_http` itself never does). -/
structure RunEnv where
  gen : String → String
  raises : Nat → String → Bool

/-- Mutable state of `main`'s loop: the working table, the processed-rows
ledger (a set, kept as a duplicate-free list), and the transformer state. -/
structure RunState where
  df : Table
  processed : List Nat
  pf : PFState

/-- Python `set.add` on the ledger. -/
def processed_insert (processed : List Nat) (i : Nat) : List Nat :=
  if processed.contains i then processed else i :: processed

/-- One cell of the row loop: `paraphrase_field` under `try`, keeping the
original value when it raises.  An exception is modelled as occurring before
the transformer commits any state; the table and ledger claims do not depend
on partially committed cache writes. -/
def transform_cell (env : RunEnv) (pf : PFState) (i : Nat) (col : String) (val : Value) :
    Value × PFState :=
  if env.raises i col then (val, pf) else paraphrase_field env.gen pf val col

/-- One step of the per-row column loop: read the cell from the row snapshot
taken by `row = df.iloc[i]`, transform it, and write it back. -/
def cell_step (env : RunEnv) (cols0 : List String) (row : List Value) (i : Nat)
    (acc : RunState) (col : String) : RunState :=
  let val := row_value cols0 row col
  let r := transform_cell env acc.pf i col val
  { acc with df := table_set acc.df i col r.1, pf := r.2 }

/-- Processing of one row in `main`: snapshot the row, transform every target
column in order, then add the row index to the ledger. -/
def process_row (env : RunEnv) (cols : List String) (s : RunState) (i : Nat) : RunState :=
  let row := s.df.rows.getD i []
  let s2 := cols.foldl (cell_step env s.df.cols row i) s
  { s2 with processed := processed_insert s2.processed i }

/-- The batch loop of `main`: rows batch by batch, in order.  The
checkpoint/ledger writes after each batch do not change the in-memory
state. -/
def run_batches (env : RunEnv) (cols : List String) (s : RunState)
    (batches : List (List Nat)) : RunState :=
  batches.foldl (fun st batch => batch.foldl (process_row env cols) st) s

/-- The whole processing phase of `main` after startup: compute the remaining
indices from the loaded ledger, partition them into batches of `BATCH_SIZE`,
and run the batch loop over the working table and the persistent cache. -/
def run_main (env : RunEnv) (cols : List String) (df : Table) (processed : List Nat)
    (store : CacheStore) : RunState :=
  run_batches env cols
    { df := df, processed := processed, pf := { store := store, genCalls := 0 } }
    (chunksOf BATCH_SIZE (remaining_indices df.rows.length processed))

/-- The guard of `cache_get` and `paraphrase_field`:
`isinstance(text, str) and text.strip()`. -/
def meaningful_text (v : Value) : Bool :=
  match v with
  | Value.str s => py_strip s != ""
  | _ => false

/-- No newline character occurs in the string (true of every configured
column name; the separator of `sha_key_input` starts with a newline). -/
def no_newline (s : String) : Bool := ! s.data.contains '\n'

/-
Shared lemmas about the cache and the field transformer.
-/

theorem cache_lookup_put_self (store : CacheStore) (col s out : String) :
    cache_lookup (cache_put store col s out) (sha_key col s) = some out := by
  simp [cache_lookup, cache_put, List.find?]

theorem cache_get_str_put_self (store : CacheStore) (col s out : String) :
    cache_get_str (cache_put store col s out) col s = out := by
  simp [cache_get_str, cache_lookup_put_self]

theorem py_strip_empty : py_strip "" = "" := rfl

theorem ne_empty_of_strip_ne {s : String} (h : py_strip s ≠ "") : s ≠ "" := by
  intro he
  exact h (he ▸ py_strip_empty)

/-- Evaluation of `paraphrase_field` on the cache-miss path. -/
theorem paraphrase_field_miss (gen : String → String) (store : CacheStore) (n : Nat)
    (col s : String) (hs : py_strip s ≠ "") (hmiss : cache_get_str store col s = "") :
    paraphrase_field gen ⟨store, n⟩ (Value.str s) col =
      (Value.str (if py_strip (gen (prompt_for col s)) != "" then gen (prompt_for col s) else s),
       ⟨cache_put store col s
          (if py_strip (gen (prompt_for col s)) != "" then gen (prompt_for col s) else s),
        n + 1⟩) := by
  have h1 : (py_strip s == "") = false := by simpa using hs
  simp [paraphrase_field, h1, hmiss]

/-- Evaluation of `paraphrase_field` on the cache-hit path. -/
theorem paraphrase_field_hit (gen : String → String) (store : CacheStore) (n : Nat)
    (col s out : String) (hs : py_strip s ≠ "")
    (hhit : cache_get_str store col s = out) (hout : out ≠ "") :
    paraphrase_field gen ⟨store, n⟩ (Value.str s) col = (Value.str out, ⟨store, n⟩) := by
  have h1 : (py_strip s == "") = false := by simpa using hs
  have h2 : (out != "") = true := by simpa using hout
  simp [paraphrase_field, h1, hhit, h2]

/-
Claim C8: put/get round-trip.
-/

/-- C8 counterexample: for the non-empty text `" "` (whitespace only),
`cache_put` followed by `cache_get` returns the original text `" "`, not the
stored output `"x"` — the guard of `cache_get` never consults the store for
whitespace-only text, so the round-trip as claimed for every non-empty text
fails. -/
theorem C8_roundtrip_counterexample :
    " " ≠ "" ∧
    cache_get (cache_put [] "Uses" " " "x") "Uses" (Value.str " ") = Value.str " " ∧
    Value.str " " ≠ Value.str "x" := by
  refine ⟨by decide, by decide, by decide⟩

/-- C8 (amended): for every column, every text whose stripped form is
non-empty, and every string output, `cache_put` followed by `cache_get` on
the same `(column, text)` pair returns exactly the stored output. -/
theorem C8_put_get_roundtrip (store : CacheStore) (col s out : String)
    (hs : py_strip s ≠ "") :
    cache_get (cache_put store col s out) col (Value.str s) = Value.str out := by
  have h1 : (py_strip s == "") = false := by simpa using hs
  simp [cache_get, h1, cache_get_str_put_self]

/-- C8 witness: the round-trip at a concrete store, column, text and
output. -/
theorem C8_witness :
    py_strip "hello" ≠ "" ∧
    cache_get (cache_put [] "Uses" "hello" "x") "Uses" (Value.str "hello") = Value.str "x" :=
  ⟨by decide, C8_put_get_roundtrip [] "Uses" "hello" "x" (by decide)⟩

/-
Claim C9: behavior of `cache_get` on invalid text.
-/

/-- C9 counterexample: for the non-string input `5`, `cache_get` returns `5`
itself — the unchanged input — which is neither an empty string nor
NaN/absent, contradicting "returns empty/absent". -/
theorem C9_invalid_counterexample :
    meaningful_text (Value.num 5) = false ∧
    cache_get [] "Uses" (Value.num 5) = Value.num 5 ∧
    ¬ (cache_get [] "Uses" (Value.num 5) = Value.str "" ∨
       cache_get [] "Uses" (Value.num 5) = Value.nan) := by
  refine ⟨rfl, rfl, by decide⟩

/-- C9 (amended): whenever `text` is not a non-empty (after stripping)
string, `cache_get` returns the input unchanged without consulting the store
(its result does not depend on the store), and the transformer neither
writes such inputs to the cache nor calls generation on them
(`paraphrase_field` returns the input with its state untouched). -/
theorem C9_invalid_input_passthrough (store store2 : CacheStore) (col : String) (v : Value)
    (n : Nat) (gen : String → String) (h : meaningful_text v = false) :
    cache_get store col v = v ∧
    cache_get store col v = cache_get store2 col v ∧
    paraphrase_field gen ⟨store, n⟩ v col = (v, ⟨store, n⟩) := by
  cases v with
  | str s =>
    have hs : py_strip s = "" := by simpa [meaningful_text] using h
    simp [cache_get, paraphrase_field, hs]
  | num m => exact ⟨rfl, rfl, rfl⟩
  | nan => exact ⟨rfl, rfl, rfl⟩

/-- C9 witness: the passthrough at the concrete non-string input `5` and two
different stores. -/
theorem C9_witness :
    meaningful_text (Value.num 5) = false ∧
    (cache_get [] "Uses" (Value.num 5) = Value.num 5 ∧
     cache_get [] "Uses" (Value.num 5) =
       cache_get (cache_put [] "Uses" "a" "b") "Uses" (Value.num 5) ∧
     paraphrase_field (fun _ => "") ⟨[], 0⟩ (Value.num 5) "Uses" = (Value.num 5, ⟨[], 0⟩)) :=
  ⟨rfl, C9_invalid_input_passthrough [] (cache_put [] "Uses" "a" "b") "Uses" (Value.num 5) 0
    (fun _ => "") rfl⟩

/-
Claim C1: fallback on empty generation.
-/

/-- C1 counterexample: for the non-empty, whitespace-only text `" "`, with an
empty cache and a generation client that returns empty text, the transformer
does return the input unchanged, but the cache afterwards does not contain
the original text under the pair's key — the guard skips whitespace-only
text before any caching, so the claim's cache conjunct fails for it. -/
theorem C1_fallback_counterexample :
    " " ≠ "" ∧
    py_strip ((fun _ => "") (prompt_for "Uses" " ")) = "" ∧
    (paraphrase_field (fun _ => "") ⟨[], 0⟩ (Value.str " ") "Uses").1 = Value.str " " ∧
    cache_lookup (paraphrase_field (fun _ => "") ⟨[], 0⟩ (Value.str " ") "Uses").2.store
      (sha_key "Uses" " ") ≠ some " " := by
  refine ⟨by decide, rfl, by decide, ?_⟩
  have h : (paraphrase_field (fun _ => "") ⟨[], 0⟩ (Value.str " ") "Uses").2 =
      (⟨[], 0⟩ : PFState) := by decide
  rw [h]
  simp [cache_lookup]

/-- C1 (amended): for every column and every text whose stripped form is
non-empty, if the cache holds no output for the pair and the generation
client returns empty or whitespace-only text for the built prompt, then
`paraphrase_field` returns the original text unchanged and the cache
afterwards contains the original text as the stored output under the pair's
key. -/
theorem C1_empty_generation_fallback (gen : String → String) (store : CacheStore) (n : Nat)
    (col s : String) (hs : py_strip s ≠ "")
    (hmiss : cache_get_str store col s = "")
    (hgen : py_strip (gen (prompt_for col s)) = "") :
    (paraphrase_field gen ⟨store, n⟩ (Value.str s) col).1 = Value.str s ∧
    cache_lookup (paraphrase_field gen ⟨store, n⟩ (Value.str s) col).2.store
      (sha_key col s) = some s := by
  have h := paraphrase_field_miss gen store n col s hs hmiss
  rw [h]
  simp [hgen, cache_lookup_put_self]

/-- C1 witness: the fallback at a concrete column, text, empty cache and an
always-empty generation client. -/
theorem C1_witness :
    py_strip "hello" ≠ "" ∧ cache_get_str [] "Uses" "hello" = "" ∧
    ((paraphrase_field (fun _ => "") ⟨[], 0⟩ (Value.str "hello") "Uses").1 = Value.str "hello" ∧
     cache_lookup (paraphrase_field (fun _ => "") ⟨[], 0⟩ (Value.str "hello") "Uses").2.store
       (sha_key "Uses" "hello") = some "hello") :=
  ⟨by decide, rfl,
   C1_empty_generation_fallback (fun _ => "") [] 0 "Uses" "hello" (by decide) rfl rfl⟩

/-
Claim C5: cache hits short-circuit generation.
-/

/-- C5 counterexample: a cache that holds the non-empty stored output `"x"`
under the key for the pair `("Uses", " ")` — yet the transformer on that pair
returns `" "` (the guard path), not the stored output, so the claim fails
for pairs whose text is whitespace-only. -/
theorem C5_cache_hit_counterexample :
    cache_lookup (cache_put [] "Uses" " " "x") (sha_key "Uses" " ") = some "x" ∧
    "x" ≠ "" ∧
    paraphrase_field (fun _ => "") ⟨cache_put [] "Uses" " " "x", 0⟩ (Value.str " ") "Uses"
      = (Value.str " ", ⟨cache_put [] "Uses" " " "x", 0⟩) ∧
    Value.str " " ≠ Value.str "x" :=
  ⟨cache_lookup_put_self [] "Uses" " " "x", by decide, rfl, by decide⟩

/-- C5 (amended): for every pair whose text strips to non-empty and for which
the cache holds a non-empty stored output, `paraphrase_field` returns that
stored output with its state unchanged — in particular the generation-call
counter does not move, so no generation call is performed — and running it a
second time on the same pair behaves identically, performing no additional
generation call. -/
theorem C5_cache_hit_skips_generation (gen : String → String) (store : CacheStore) (n : Nat)
    (col s out : String) (hs : py_strip s ≠ "")
    (hhit : cache_lookup store (sha_key col s) = some out) (hout : out ≠ "") :
    paraphrase_field gen ⟨store, n⟩ (Value.str s) col = (Value.str out, ⟨store, n⟩) ∧
    paraphrase_field gen (paraphrase_field gen ⟨store, n⟩ (Value.str s) col).2
      (Value.str s) col = (Value.str out, ⟨store, n⟩) := by
  have h2 : cache_get_str store col s = out := by simp [cache_get_str, hhit]
  have h := paraphrase_field_hit gen store n col s out hs h2 hout
  exact ⟨h, by rw [h]; exact h⟩

/-- C5 witness: a concrete populated cache, on which the transformer returns
the cached output twice with the call counter untouched. -/
theorem C5_witness :
    py_strip "hello" ≠ "" ∧
    cache_lookup (cache_put [] "Uses" "hello" "x") (sha_key "Uses" "hello") = some "x" ∧
    (paraphrase_field (fun _ => "bad") ⟨cache_put [] "Uses" "hello" "x", 0⟩
        (Value.str "hello") "Uses"
      = (Value.str "x", ⟨cache_put [] "Uses" "hello" "x", 0⟩) ∧
     paraphrase_field (fun _ => "bad")
        (paraphrase_field (fun _ => "bad") ⟨cache_put [] "Uses" "hello" "x", 0⟩
          (Value.str "hello") "Uses").2 (Value.str "hello") "Uses"
      = (Value.str "x", ⟨cache_put [] "Uses" "hello" "x", 0⟩)) :=
  ⟨by decide, cache_lookup_put_self [] "Uses" "hello" "x",
   C5_cache_hit_skips_generation (fun _ => "bad") (cache_put [] "Uses" "hello" "x") 0
     "Uses" "hello" "x" (by decide) (cache_lookup_put_self [] "Uses" "hello" "x") (by decide)⟩

/-
Claim C10: transformer cache writes are non-empty.
-/

/-- C10: whenever `paraphrase_field` reaches its cache write (text strips to
non-empty and the cache misses), the stored output strips to non-empty —
it is either the generation result or the original text — and a later
lookup or transform of the same pair is a cache hit returning it. -/
theorem C10_cache_writes_nonempty (gen : String → String) (store : CacheStore) (n : Nat)
    (col s : String) (hs : py_strip s ≠ "") (hmiss : cache_get_str store col s = "") :
    ∃ out,
      cache_lookup (paraphrase_field gen ⟨store, n⟩ (Value.str s) col).2.store
        (sha_key col s) = some out ∧
      py_strip out ≠ "" ∧ out ≠ "" ∧
      (out = gen (prompt_for col s) ∨ out = s) ∧
      paraphrase_field gen (paraphrase_field gen ⟨store, n⟩ (Value.str s) col).2
        (Value.str s) col
        = (Value.str out, (paraphrase_field gen ⟨store, n⟩ (Value.str s) col).2) := by
  have h := paraphrase_field_miss gen store n col s hs hmiss
  by_cases hgen : py_strip (gen (prompt_for col s)) = ""
  · refine ⟨s, ?_, hs, ne_empty_of_strip_ne hs, Or.inr rfl, ?_⟩
    · rw [h]; simp [hgen, cache_lookup_put_self]
    · rw [h]
      simp only [hgen]
      have hput : cache_get_str (cache_put store col s s) col s = s :=
        cache_get_str_put_self store col s s
      have := paraphrase_field_hit gen (cache_put store col s s) (n + 1) col s s hs hput
        (ne_empty_of_strip_ne hs)
      simpa [hgen] using this
  · refine ⟨gen (prompt_for col s), ?_, hgen, ?_, Or.inl rfl, ?_⟩
    · rw [h]; simp [hgen, cache_lookup_put_self]
    · exact ne_empty_of_strip_ne hgen
    · rw [h]
      simp only [hgen]
      have hput : cache_get_str (cache_put store col s (gen (prompt_for col s))) col s =
          gen (prompt_for col s) := cache_get_str_put_self store col s _
      have := paraphrase_field_hit gen (cache_put store col s (gen (prompt_for col s)))
        (n + 1) col s (gen (prompt_for col s)) hs hput (ne_empty_of_strip_ne hgen)
      simpa [hgen] using this

/-- C10 witness: a concrete miss on an empty cache where generation fails,
so the fallback (the original text) is stored and subsequently hit. -/
theorem C10_witness :
    py_strip "hello" ≠ "" ∧ cache_get_str [] "Uses" "hello" = "" ∧
    ∃ out,
      cache_lookup (paraphrase_field (fun _ => " ") ⟨[], 0⟩ (Value.str "hello") "Uses").2.store
        (sha_key "Uses" "hello") = some out ∧
      py_strip out ≠ "" ∧ out ≠ "" ∧
      (out = (fun _ => " ") (prompt_for "Uses" "hello") ∨ out = "hello") ∧
      paraphrase_field (fun _ => " ")
        (paraphrase_field (fun _ => " ") ⟨[], 0⟩ (Value.str "hello") "Uses").2
        (Value.str "hello") "Uses"
        = (Value.str out,
           (paraphrase_field (fun _ => " ") ⟨[], 0⟩ (Value.str "hello") "Uses").2) :=
  ⟨by decide, rfl,
   C10_cache_writes_nonempty (fun _ => " ") [] 0 "Uses" "hello" (by decide) rfl⟩

/-
Claim C7: key derivation.
-/

theorem append_newline_sep_inj :
    ∀ (a : List Char) {b : List Char} (a2 : List Char) {b2 : List Char},
      '\n' ∉ a → '\n' ∉ a2 → a ++ '\n' :: b = a2 ++ '\n' :: b2 → a = a2 ∧ b = b2
  | [], _, [], _, _, _, h => by simpa using h
  | [], _, y :: ys, _, _, ha2, h => by
    simp only [List.nil_append, List.cons_append, List.cons.injEq] at h
    exact absurd (h.1 ▸ List.mem_cons_self y ys) ha2
  | x :: xs, _, [], _, ha, _, h => by
    simp only [List.cons_append, List.nil_append, List.cons.injEq] at h
    exact absurd (h.1 ▸ List.mem_cons_self x xs) ha
  | x :: xs, _, y :: ys, _, ha, ha2, h => by
    simp only [List.cons_append, List.cons.injEq] at h
    have r := append_newline_sep_inj xs ys (fun hm => ha (List.mem_cons_of_mem _ hm))
      (fun hm => ha2 (List.mem_cons_of_mem _ hm)) h.2
    exact ⟨by rw [h.1, r.1], r.2⟩

theorem string_of_data {s t : String} (h : s.data = t.data) : s = t := by
  cases s; cases t; exact congrArg String.mk h

/-- Injectivity of the labeled pre-hash encoding when neither column
contains a newline. -/
theorem sha_key_input_inj (c1 t1 c2 t2 : String)
    (h1 : no_newline c1 = true) (h2 : no_newline c2 = true)
    (h : sha_key_input c1 t1 = sha_key_input c2 t2) : c1 = c2 ∧ t1 = t2 := by
  have hm1 : '\n' ∉ c1.data := by simpa [no_newline] using h1
  have hm2 : '\n' ∉ c2.data := by simpa [no_newline] using h2
  have hd := congrArg String.data h
  have hsep : ("\nTEXT:" : String).data = '\n' :: ("TEXT:" : String).data := rfl
  simp only [sha_key_input, String.data_append, List.append_assoc, hsep,
    List.cons_append, List.nil_append, List.cons.injEq, true_and] at hd
  have hd2 := hd
  have r := append_newline_sep_inj c1.data c2.data hm1 hm2 hd2
  have ht : t1.data = t2.data := by simpa using r.2
  exact ⟨string_of_data r.1, string_of_data ht⟩

/-- C7 counterexample: two distinct `(column, text)` pairs whose labeled
concatenations — and hence keys — coincide without any hash collision, because
the column may itself contain the `"\nTEXT:"` separator.  The claimed
injectivity over all pairs therefore fails. -/
theorem C7_encoding_counterexample :
    sha_key_input "A\nTEXT:B" "C" = sha_key_input "A" "B\nTEXT:C" ∧
    sha_key "A\nTEXT:B" "C" = sha_key "A" "B\nTEXT:C" ∧
    ¬ ("A\nTEXT:B" = "A" ∧ "C" = "B\nTEXT:C") := by
  have h : sha_key_input "A\nTEXT:B" "C" = sha_key_input "A" "B\nTEXT:C" := by decide
  exact ⟨h, congrArg (fun x => sha256Hex (utf8Bytes x)) h, by decide⟩

/-- C7 (amended): `sha_key` is deterministic, and the labeled pre-hash
encoding is injective for columns containing no newline (true of every
configured column); for such columns, two distinct pairs can share a key
only through a collision of SHA-256 itself on distinct inputs. -/
theorem C7_key_deterministic_and_injective :
    (∀ col text, sha_key col text = sha_key col text) ∧
    (∀ c1 t1 c2 t2, no_newline c1 = true → no_newline c2 = true →
      sha_key_input c1 t1 = sha_key_input c2 t2 → c1 = c2 ∧ t1 = t2) ∧
    (∀ c1 t1 c2 t2, no_newline c1 = true → no_newline c2 = true →
      sha_key c1 t1 = sha_key c2 t2 → ¬ (c1 = c2 ∧ t1 = t2) →
      sha_key_input c1 t1 ≠ sha_key_input c2 t2 ∧
      sha256Hex (utf8Bytes (sha_key_input c1 t1)) =
        sha256Hex (utf8Bytes (sha_key_input c2 t2))) := by
  refine ⟨fun _ _ => rfl, sha_key_input_inj, ?_⟩
  intro c1 t1 c2 t2 h1 h2 hk hne
  exact ⟨fun he => hne (sha_key_input_inj c1 t1 c2 t2 h1 h2 he), hk⟩

/-- C7 witness: determinism and injectivity applied at concrete configured
column names. -/
theorem C7_witness :
    no_newline "Uses" = true ∧ no_newline "Side Effects" = true ∧
    ("Uses" = "Uses" ∧ "hello" = "hello") :=
  ⟨by decide, by decide,
   C7_key_deterministic_and_injective.2.1 "Uses" "hello" "Uses" "hello"
     (by decide) (by decide) rfl⟩

/-
Claim C6: checkpoint adoption.
-/

/-- C6 counterexample: a checkpoint with the same column set and row count
as the input table but with the rows in a different order is adopted as the
working table, so adoption does not require reproducing the input's row
ordering. -/
theorem C6_checkpoint_counterexample :
    adopt_checkpoint ⟨["Uses"], [[Value.str "a"], [Value.str "b"]]⟩
      (some (Except.ok ⟨["Uses"], [[Value.str "b"], [Value.str "a"]]⟩)) =
      ⟨["Uses"], [[Value.str "b"], [Value.str "a"]]⟩ ∧
    (⟨["Uses"], [[Value.str "b"], [Value.str "a"]]⟩ : Table) ≠
      ⟨["Uses"], [[Value.str "a"], [Value.str "b"]]⟩ := by
  refine ⟨by decide, by decide⟩

/-- C6 (amended): a loaded checkpoint is adopted exactly when its column set
and row count match the input table — row ordering and cell contents are not
verified — and any other checkpoint (mismatched, unreadable, or absent)
leaves the freshly loaded input table in use unmodified; the result is
always wholly the checkpoint or wholly the input table, never a mixture. -/
theorem C6_checkpoint_adoption (df c : Table) :
    (adopt_checkpoint df (some (Except.ok c)) = c ∨
     adopt_checkpoint df (some (Except.ok c)) = df) ∧
    ((same_col_set c.cols df.cols && c.rows.length == df.rows.length) = true →
      adopt_checkpoint df (some (Except.ok c)) = c) ∧
    ((same_col_set c.cols df.cols && c.rows.length == df.rows.length) = false →
      adopt_checkpoint df (some (Except.ok c)) = df) ∧
    adopt_checkpoint df none = df ∧
    adopt_checkpoint df (some (Except.error ())) = df := by
  by_cases h : (same_col_set c.cols df.cols && c.rows.length == df.rows.length) = true
  · exact ⟨Or.inl (by simp [adopt_checkpoint, h]), fun _ => by simp [adopt_checkpoint, h],
      fun hf => absurd h (by simp [hf]), rfl, rfl⟩
  · have hf : (same_col_set c.cols df.cols && c.rows.length == df.rows.length) = false := by
      simpa using h
    exact ⟨Or.inr (by simp [adopt_checkpoint, hf]), fun ht => absurd ht h,
      fun _ => by simp [adopt_checkpoint, hf], rfl, rfl⟩

/-- C6 witness: adoption decision at a concrete mismatched checkpoint (row
counts differ), which leaves the input table unmodified. -/
theorem C6_witness :
    (same_col_set (Table.mk ["Uses"] [[Value.str "a"]]).cols
        (Table.mk ["Uses"] []).cols &&
      (Table.mk ["Uses"] [[Value.str "a"]]).rows.length ==
        (Table.mk ["Uses"] []).rows.length) = false ∧
    adopt_checkpoint ⟨["Uses"], []⟩ (some (Except.ok ⟨["Uses"], [[Value.str "a"]]⟩)) =
      ⟨["Uses"], []⟩ :=
  ⟨by decide,
   (C6_checkpoint_adoption ⟨["Uses"], []⟩ ⟨["Uses"], [[Value.str "a"]]⟩).2.2.1 (by decide)⟩

/-
Claim C4: the generation client's retry policy.
-/

/-- Step equation: a raised attempt moves the loop to the next index. -/
theorem gen_run_from_none (env : Nat → AttemptResult) (i fuel : Nat)
    (h : attempt_text (env i) = none) :
    gen_run_from env i (fuel + 1) = gen_run_from env (i + 1) fuel := by
  rw [gen_run_from, h]

/-- Step equation: a completed attempt either retries on empty text or
returns its text. -/
theorem gen_run_from_some (env : Nat → AttemptResult) (i fuel : Nat) (t : String)
    (h : attempt_text (env i) = some t) :
    gen_run_from env i (fuel + 1) =
      if (t == "") = true then gen_run_from env (i + 1) fuel else (t, i + 1) := by
  rw [gen_run_from, h]

/-- The attempt counter never exceeds the starting index plus the fuel. -/
theorem gen_run_from_le (env : Nat → AttemptResult) (i fuel : Nat) :
    (gen_run_from env i fuel).2 ≤ i + fuel := by
  induction fuel generalizing i with
  | zero => simp [gen_run_from]
  | succ f ih =>
    cases h : attempt_text (env i) with
    | none =>
      rw [gen_run_from_none env i f h]
      exact le_trans (ih (i + 1)) (by omega)
    | some t =>
      rw [gen_run_from_some env i f t h]
      by_cases ht : (t == "") = true
      · rw [if_pos ht]
        exact le_trans (ih (i + 1)) (by omega)
      · rw [if_neg ht]
        omega

/-- The loop consults only the attempts in `[i, i + fuel)`. -/
theorem gen_run_from_congr (env env2 : Nat → AttemptResult) (i fuel : Nat)
    (h : ∀ j, i ≤ j → j < i + fuel → env j = env2 j) :
    gen_run_from env i fuel = gen_run_from env2 i fuel := by
  induction fuel generalizing i with
  | zero => rfl
  | succ f ih =>
    have he : attempt_text (env i) = attempt_text (env2 i) :=
      congrArg attempt_text (h i (le_refl i) (by omega))
    have ihnext := ih (i + 1) (fun j hj1 hj2 => h j (by omega) (by omega))
    cases ha : attempt_text (env2 i) with
    | none =>
      rw [gen_run_from_none env i f (he.trans ha), gen_run_from_none env2 i f ha]
      exact ihnext
    | some t =>
      rw [gen_run_from_some env i f t (he.trans ha), gen_run_from_some env2 i f t ha]
      by_cases ht : (t == "") = true
      · rw [if_pos ht, if_pos ht]
        exact ihnext
      · rw [if_neg ht, if_neg ht]

/-- A failing attempt (raised, or empty accumulated text) is retried: the
loop just moves on to the next attempt. -/
theorem gen_run_from_retries (env : Nat → AttemptResult) (i fuel : Nat)
    (h : attempt_fails (env i) = true) :
    gen_run_from env i (fuel + 1) = gen_run_from env (i + 1) fuel := by
  unfold attempt_fails at h
  cases ha : attempt_text (env i) with
  | none => exact gen_run_from_none env i fuel ha
  | some t =>
    rw [ha] at h
    rw [gen_run_from_some env i fuel t ha, if_pos h]

/-- When every attempt fails, the loop exhausts its fuel and returns the
empty string. -/
theorem gen_run_from_all_fail (env : Nat → AttemptResult) (i fuel : Nat)
    (h : ∀ j, i ≤ j → j < i + fuel → attempt_fails (env j) = true) :
    gen_run_from env i fuel = ("", i + fuel) := by
  induction fuel generalizing i with
  | zero => rfl
  | succ f ih =>
    rw [gen_run_from_retries env i f (h i (le_refl i) (by omega))]
    rw [ih (i + 1) (fun j hj1 hj2 => h j (by omega) (by omega))]
    congr 1
    omega

/-- C4: the generation client makes at most `MAX_RETRIES` (6) attempts — its
result depends only on the first `MAX_RETRIES` attempt outcomes and the
attempt counter never exceeds `MAX_RETRIES`; a raised transport error, a
raised HTTP error status, and empty accumulated text are each retriable; and
when every attempt fails, it returns the empty string to its caller (it is a
total function into `String`: no exception escapes). -/
theorem C4_generation_client_retry (env : Nat → AttemptResult) :
    (gen_run env).2 ≤ MAX_RETRIES ∧
    (∀ env2, (∀ j, j < MAX_RETRIES → env j = env2 j) → gen_run env = gen_run env2) ∧
    attempt_fails AttemptResult.transportErr = true ∧
    (∀ status, attempt_fails (AttemptResult.httpErr status) = true) ∧
    (∀ lines, attempt_text (AttemptResult.stream lines) = some "" →
      attempt_fails (AttemptResult.stream lines) = true) ∧
    (∀ i fuel, attempt_fails (env i) = true →
      gen_run_from env i (fuel + 1) = gen_run_from env (i + 1) fuel) ∧
    ((∀ j, j < MAX_RETRIES → attempt_fails (env j) = true) →
      ollama_generate_http env = "" ∧ gen_run env = ("", MAX_RETRIES)) := by
  refine ⟨?_, ?_, rfl, fun _ => rfl, ?_, ?_, ?_⟩
  · simpa using gen_run_from_le env 0 MAX_RETRIES
  · intro env2 h
    exact gen_run_from_congr env env2 0 MAX_RETRIES (fun j _ hj => h j (by simpa using hj))
  · intro lines hl
    simp [attempt_fails, hl]
  · exact fun i fuel h => gen_run_from_retries env i fuel h
  · intro h
    have := gen_run_from_all_fail env 0 MAX_RETRIES (fun j _ hj => h j (by simpa using hj))
    refine ⟨?_, by simpa using this⟩
    simp only [ollama_generate_http, gen_run]
    rw [this]

/-- C4 witness: an environment whose every attempt raises a transport error
consumes all six attempts and yields the empty string. -/
theorem C4_witness :
    (gen_run (fun _ => AttemptResult.transportErr)).2 ≤ MAX_RETRIES ∧
    ollama_generate_http (fun _ => AttemptResult.transportErr) = "" ∧
    gen_run (fun _ => AttemptResult.transportErr) = ("", MAX_RETRIES) :=
  ⟨(C4_generation_client_retry (fun _ => AttemptResult.transportErr)).1,
   (C4_generation_client_retry (fun _ => AttemptResult.transportErr)).2.2.2.2.2.2
     (fun _ _ => rfl)⟩

/-
Table lemmas.
-/

theorem table_set_cols (t : Table) (i : Nat) (c : String) (v : Value) :
    (table_set t i c v).cols = t.cols := by
  unfold table_set
  cases t.cols.findIdx? (fun c2 => c2 == c) <;> rfl

theorem table_set_of_none (t : Table) (i : Nat) (c : String) (v : Value)
    (hf : t.cols.findIdx? (fun c2 => c2 == c) = none) : table_set t i c v = t := by
  unfold table_set
  rw [hf]

theorem table_set_rows_of_some (t : Table) (i : Nat) (c : String) (v : Value) (j : Nat)
    (hf : t.cols.findIdx? (fun c2 => c2 == c) = some j) :
    (table_set t i c v).rows = t.rows.set i ((t.rows.getD i []).set j v) := by
  unfold table_set
  rw [hf]

theorem getD_set_ne {α : Type} {l : List α} {i j : Nat} (h : i ≠ j) (x d : α) :
    (l.set i x).getD j d = l.getD j d := by
  rw [List.getD_eq_getElem?_getD, List.getD_eq_getElem?_getD, List.getElem?_set_ne h]

theorem getD_set_self_of_lt {α : Type} {l : List α} {i : Nat} (h : i < l.length) (x d : α) :
    (l.set i x).getD i d = x := by
  rw [List.getD_eq_getElem?_getD, List.getElem?_set_self h]
  rfl

theorem findIdx?_lt_and_elem {cols : List String} {c : String} {j : Nat}
    (h : cols.findIdx? (fun c2 => c2 == c) = some j) :
    ∃ hj : j < cols.length, cols[j] = c := by
  rw [List.findIdx?_eq_some_iff_findIdx_eq] at h
  obtain ⟨hj, hfi⟩ := h
  subst hfi
  exact ⟨hj, eq_of_beq (List.findIdx_getElem (w := hj))⟩

theorem findIdx?_col_of_mem {cols : List String} {c : String} (h : c ∈ cols) :
    ∃ j, cols.findIdx? (fun c2 => c2 == c) = some j := by
  cases hf : cols.findIdx? (fun c2 => c2 == c) with
  | none =>
    rw [List.findIdx?_eq_none_iff] at hf
    have := hf c h
    simp at this
  | some j => exact ⟨j, rfl⟩

theorem row_value_set_ne {cols : List String} {c c2 : String} (h : c2 ≠ c) {j : Nat}
    (hj : cols.findIdx? (fun x => x == c) = some j) (row : List Value) (v : Value) :
    row_value cols (row.set j v) c2 = row_value cols row c2 := by
  unfold row_value
  cases hf2 : cols.findIdx? (fun x => x == c2) with
  | none => rfl
  | some j2 =>
    obtain ⟨hjlt, hjc⟩ := findIdx?_lt_and_elem hj
    obtain ⟨hj2lt, hj2c⟩ := findIdx?_lt_and_elem hf2
    have hne : j ≠ j2 := by
      intro he
      have e1 : cols[j]? = some c := by rw [List.getElem?_eq_getElem hjlt, hjc]
      have e2 : cols[j2]? = some c2 := by rw [List.getElem?_eq_getElem hj2lt, hj2c]
      rw [he, e2] at e1
      exact h (Option.some.inj e1)
    exact getD_set_ne hne v Value.nan

/-- A cell write lands the written value or leaves the cell untouched (the
write is a no-op when the column or row index does not exist). -/
theorem table_at_set_self_or (t : Table) (i : Nat) (c : String) (v : Value) :
    table_at (table_set t i c v) i c = v ∨
    table_at (table_set t i c v) i c = table_at t i c := by
  cases hf : t.cols.findIdx? (fun c2 => c2 == c) with
  | none =>
    right
    rw [table_set_of_none t i c v hf]
  | some j =>
    unfold table_at
    rw [table_set_cols, table_set_rows_of_some t i c v j hf]
    by_cases hi : i < t.rows.length
    · rw [getD_set_self_of_lt hi]
      unfold row_value
      rw [hf]
      by_cases hj : j < (t.rows.getD i []).length
      · left
        exact getD_set_self_of_lt hj v Value.nan
      · right
        rw [List.set_eq_of_length_le (by omega)]
    · right
      rw [List.set_eq_of_length_le (by omega)]

theorem table_at_set_ne_col (t : Table) (i : Nat) {c c2 : String} (h : c2 ≠ c) (v : Value) :
    table_at (table_set t i c v) i c2 = table_at t i c2 := by
  cases hf : t.cols.findIdx? (fun x => x == c) with
  | none => rw [table_set_of_none t i c v hf]
  | some j =>
    unfold table_at
    rw [table_set_cols, table_set_rows_of_some t i c v j hf]
    by_cases hi : i < t.rows.length
    · rw [getD_set_self_of_lt hi]
      exact row_value_set_ne h hf _ v
    · rw [List.set_eq_of_length_le (by omega)]

theorem table_at_set_ne_row (t : Table) {i i2 : Nat} (h : i2 ≠ i) (c c2 : String) (v : Value) :
    table_at (table_set t i c v) i2 c2 = table_at t i2 c2 := by
  cases hf : t.cols.findIdx? (fun x => x == c) with
  | none => rw [table_set_of_none t i c v hf]
  | some j =>
    unfold table_at
    rw [table_set_cols, table_set_rows_of_some t i c v j hf,
      getD_set_ne (fun he => h he.symm) _ _]

theorem mem_processed_insert (p : List Nat) (i x : Nat) :
    x ∈ processed_insert p i ↔ x = i ∨ x ∈ p := by
  unfold processed_insert
  by_cases h : p.contains i = true
  · rw [if_pos h]
    constructor
    · exact Or.inr
    · rintro (rfl | hx)
      · simpa using h
      · exact hx
  · rw [if_neg h]
    exact List.mem_cons

/-
The per-row column fold and the per-batch row fold.
-/

/-- Invariant through the per-row column fold: the ledger is untouched, the
header is untouched, other rows are untouched, and every cell of row `i`
either keeps its value or holds the transform of the snapshot value of its
own column at some intermediate transformer state. -/
theorem foldl_cell_step_spec (env : RunEnv) (cols0 : List String) (row : List Value)
    (i : Nat) :
    ∀ (cols : List String) (acc : RunState),
      ((cols.foldl (cell_step env cols0 row i) acc).processed = acc.processed ∧
       (cols.foldl (cell_step env cols0 row i) acc).df.cols = acc.df.cols) ∧
      (∀ i2, i2 ≠ i → ∀ c,
        table_at (cols.foldl (cell_step env cols0 row i) acc).df i2 c =
          table_at acc.df i2 c) ∧
      (∀ c, table_at (cols.foldl (cell_step env cols0 row i) acc).df i c =
          table_at acc.df i c ∨
        ∃ pf, table_at (cols.foldl (cell_step env cols0 row i) acc).df i c =
          (transform_cell env pf i c (row_value cols0 row c)).1)
  | [], acc => ⟨⟨rfl, rfl⟩, fun _ _ _ => rfl, fun _ => Or.inl rfl⟩
  | col :: cs, acc => by
    have ih := foldl_cell_step_spec env cols0 row i cs (cell_step env cols0 row i acc col)
    rw [List.foldl_cons]
    refine ⟨⟨?_, ?_⟩, ?_, ?_⟩
    · rw [ih.1.1]
      rfl
    · rw [ih.1.2]
      exact table_set_cols acc.df i col _
    · intro i2 hne c
      rw [ih.2.1 i2 hne c]
      exact table_at_set_ne_row acc.df hne col c _
    · intro c
      by_cases hc : c = col
      · subst hc
        rcases ih.2.2 c with h1 | h2
        · rcases table_at_set_self_or acc.df i c
            ((transform_cell env acc.pf i c (row_value cols0 row c)).1) with hv | hv
          · exact Or.inr ⟨acc.pf, h1.trans hv⟩
          · exact Or.inl (h1.trans hv)
        · exact Or.inr h2
      · rcases ih.2.2 c with h1 | h2
        · left
          rw [h1]
          exact table_at_set_ne_col acc.df i hc _
        · exact Or.inr h2

/-- Specification of one `process_row` step: the ledger gains exactly the
row index, and it does so only after the column fold; other rows are
untouched; every cell of row `i` keeps its value or holds the transform of
its original value. -/
theorem process_row_spec (env : RunEnv) (cols : List String) (s : RunState) (i : Nat) :
    (process_row env cols s i).processed = processed_insert s.processed i ∧
    (process_row env cols s i).df.cols = s.df.cols ∧
    (∀ i2, i2 ≠ i → ∀ c, table_at (process_row env cols s i).df i2 c = table_at s.df i2 c) ∧
    (∀ c, table_at (process_row env cols s i).df i c = table_at s.df i c ∨
      ∃ pf, table_at (process_row env cols s i).df i c =
        (transform_cell env pf i c (table_at s.df i c)).1) := by
  have h := foldl_cell_step_spec env s.df.cols (s.df.rows.getD i []) i cols s
  exact ⟨by rw [show (process_row env cols s i).processed =
      processed_insert (cols.foldl (cell_step env s.df.cols (s.df.rows.getD i []) i)
        s).processed i from rfl, h.1.1],
    h.1.2, h.2.1, h.2.2⟩

theorem foldl_process_row_mono (env : RunEnv) (cols : List String) :
    ∀ (idxs : List Nat) (s : RunState) (x : Nat), x ∈ s.processed →
      x ∈ (idxs.foldl (process_row env cols) s).processed
  | [], _, _, hx => hx
  | i :: is, s, x, hx => by
    rw [List.foldl_cons]
    apply foldl_process_row_mono env cols is _ x
    rw [(process_row_spec env cols s i).1, mem_processed_insert]
    exact Or.inr hx

/-- Specification of the fold over a duplicate-free list of row indices. -/
theorem foldl_process_row_spec (env : RunEnv) (cols : List String) :
    ∀ (idxs : List Nat) (s : RunState), idxs.Nodup →
      (∀ x, x ∈ (idxs.foldl (process_row env cols) s).processed ↔
        x ∈ s.processed ∨ x ∈ idxs) ∧
      (∀ i2, i2 ∉ idxs → ∀ c,
        table_at (idxs.foldl (process_row env cols) s).df i2 c = table_at s.df i2 c) ∧
      (∀ i ∈ idxs, ∀ c,
        table_at (idxs.foldl (process_row env cols) s).df i c = table_at s.df i c ∨
        ∃ pf, table_at (idxs.foldl (process_row env cols) s).df i c =
          (transform_cell env pf i c (table_at s.df i c)).1)
  | [], s, _ => ⟨fun x => by simp, fun _ _ _ => rfl, fun i hi => absurd hi (List.not_mem_nil i)⟩
  | i :: is, s, hnd => by
    rw [List.nodup_cons] at hnd
    obtain ⟨hni, hnd2⟩ := hnd
    have hrow := process_row_spec env cols s i
    have ih := foldl_process_row_spec env cols is (process_row env cols s i) hnd2
    rw [List.foldl_cons]
    refine ⟨?_, ?_, ?_⟩
    · intro x
      rw [ih.1 x, hrow.1, mem_processed_insert, List.mem_cons]
      tauto
    · intro i2 hn c
      have hne : i2 ≠ i := fun he => hn (he ▸ List.mem_cons_self i is)
      have hnotin : i2 ∉ is := fun hm => hn (List.mem_cons_of_mem i hm)
      rw [ih.2.1 i2 hnotin c, hrow.2.2.1 i2 hne c]
    · intro x hx c
      rcases List.mem_cons.mp hx with rfl | hxs
      · rw [ih.2.1 x hni c]
        exact hrow.2.2.2 c
      · have hne : x ≠ i := fun he => hni (he ▸ hxs)
        have hbase := hrow.2.2.1 x hne c
        rcases ih.2.2 x hxs c with h1 | ⟨pf, h2⟩
        · left
          rw [h1, hbase]
        · right
          exact ⟨pf, by rw [h2, hbase]⟩

theorem run_batches_eq_foldl_flatten (env : RunEnv) (cols : List String) :
    ∀ (batches : List (List Nat)) (s : RunState),
      run_batches env cols s batches = batches.flatten.foldl (process_row env cols) s
  | [], _ => rfl
  | b :: bs, s => by
    have hstep : run_batches env cols s (b :: bs) =
        run_batches env cols (b.foldl (process_row env cols) s) bs := rfl
    rw [hstep, run_batches_eq_foldl_flatten env cols bs _, List.flatten_cons,
      List.foldl_append]

theorem chunksOfAux_flatten (n : Nat) (hn : 0 < n) :
    ∀ (fuel : Nat) (l : List α), l.length ≤ fuel → (chunksOfAux n fuel l).flatten = l
  | 0, [], _ => rfl
  | 0, _ :: _, h => by simp at h
  | _ + 1, [], _ => rfl
  | fuel + 1, x :: xs, h => by
    have hstep : chunksOfAux n (fuel + 1) (x :: xs) =
        ((x :: xs).take n) :: chunksOfAux n fuel ((x :: xs).drop n) := rfl
    rw [hstep, List.flatten_cons,
      chunksOfAux_flatten n hn fuel ((x :: xs).drop n)
        (by simp only [List.length_drop, List.length_cons] at h ⊢; omega)]
    exact List.take_append_drop n (x :: xs)

theorem chunksOf_flatten (n : Nat) (hn : 0 < n) (l : List α) : (chunksOf n l).flatten = l :=
  chunksOfAux_flatten n hn l.length l (le_refl _)

theorem remaining_indices_nodup (total : Nat) (processed : List Nat) :
    (remaining_indices total processed).Nodup :=
  (List.nodup_range total).filter _

/-
Claim C2: ledger monotonicity and exactness of the remaining-work list.
-/

/-- C2: the ledger only grows — every index in the ledger before a run of
the batch loop (and of the whole processing phase) is still in it
afterwards — and the startup remaining-work list contains exactly the
indices `0 ≤ i < total_rows` that are not in the loaded ledger. -/
theorem C2_ledger_monotone_remaining_exact :
    (∀ env cols s batches, ∀ x ∈ s.processed,
      x ∈ (run_batches env cols s batches).processed) ∧
    (∀ env cols df processed store, ∀ x ∈ processed,
      x ∈ (run_main env cols df processed store).processed) ∧
    (∀ total processed i,
      i ∈ remaining_indices total processed ↔ (i < total ∧ i ∉ processed)) := by
  have hmono : ∀ env cols s batches, ∀ x ∈ s.processed,
      x ∈ (run_batches env cols s batches).processed := by
    intro env cols s batches x hx
    rw [run_batches_eq_foldl_flatten]
    exact foldl_process_row_mono env cols batches.flatten s x hx
  refine ⟨hmono, ?_, ?_⟩
  · intro env cols df processed store x hx
    exact hmono env cols _ _ x hx
  · intro total processed i
    unfold remaining_indices
    rw [List.mem_filter, List.mem_range]
    simp

/-- C2 witness: concrete monotonicity through a two-batch run and the
remaining list of a two-row table with row 1 already processed. -/
theorem C2_witness :
    ((7 : Nat) ∈ ([7] : List Nat) ∧
     7 ∈ (run_batches ⟨fun _ => "", fun _ _ => false⟩ ["Uses"]
       ⟨⟨["Uses"], [[Value.str "a"]]⟩, [7], ⟨[], 0⟩⟩ [[0], [0]]).processed) ∧
    (0 ∈ remaining_indices 2 [1] ↔ (0 < 2 ∧ 0 ∉ ([1] : List Nat))) :=
  ⟨⟨by decide,
    C2_ledger_monotone_remaining_exact.1 ⟨fun _ => "", fun _ _ => false⟩ ["Uses"]
      ⟨⟨["Uses"], [[Value.str "a"]]⟩, [7], ⟨[], 0⟩⟩ [[0], [0]] 7 (by decide)⟩,
   C2_ledger_monotone_remaining_exact.2.2 2 [1] 0⟩

/-
Claim C3: rows in the ledger are complete, cell failures degrade to the
original value.
-/

/-- C3: a row index is added to the ledger only after the whole column fold
for that row (the ledger update applies to the state the column fold
produced); after a run over duplicate-free batches the ledger holds exactly
the prior entries plus the processed indices — regardless of which cells
raised, so no cell failure aborts the batch or the run — and every target
column of every processed row holds either the transformer's result for the
row's original value or that original value itself; in particular a cell
whose transform raised keeps its original value. -/
theorem C3_rows_complete_or_fallback (env : RunEnv) (cols : List String) (s : RunState)
    (batches : List (List Nat)) (hnd : batches.flatten.Nodup) :
    (∀ s2 i, (process_row env cols s2 i).processed =
      processed_insert ((cols.foldl (cell_step env s2.df.cols (s2.df.rows.getD i []) i)
        s2)).processed i) ∧
    (∀ x, x ∈ (run_batches env cols s batches).processed ↔
      x ∈ s.processed ∨ x ∈ batches.flatten) ∧
    (∀ i ∈ batches.flatten, ∀ c,
      table_at (run_batches env cols s batches).df i c = table_at s.df i c ∨
      ∃ pf, table_at (run_batches env cols s batches).df i c =
        (paraphrase_field env.gen pf (table_at s.df i c) c).1) ∧
    (∀ i ∈ batches.flatten, ∀ c, env.raises i c = true →
      table_at (run_batches env cols s batches).df i c = table_at s.df i c) := by
  rw [run_batches_eq_foldl_flatten]
  have h := foldl_process_row_spec env cols batches.flatten s hnd
  refine ⟨fun _ _ => rfl, h.1, ?_, ?_⟩
  · intro i hi c
    rcases h.2.2 i hi c with h1 | ⟨pf, h2⟩
    · exact Or.inl h1
    · unfold transform_cell at h2
      by_cases hr : env.raises i c = true
      · rw [if_pos hr] at h2
        exact Or.inl h2
      · rw [if_neg hr] at h2
        exact Or.inr ⟨pf, h2⟩
  · intro i hi c hr
    rcases h.2.2 i hi c with h1 | ⟨pf, h2⟩
    · exact h1
    · unfold transform_cell at h2
      rw [if_pos hr] at h2
      exact h2

/-- C3 witness: a concrete one-row run (whose only cell raises) in which the
ledger still gains the row and the cell characterization holds. -/
theorem C3_witness :
    ([[0]] : List (List Nat)).flatten.Nodup ∧
    ((∀ s2 i, (process_row ⟨fun _ => "x", fun _ _ => true⟩ ["Uses"] s2 i).processed =
        processed_insert ((["Uses"].foldl
          (cell_step ⟨fun _ => "x", fun _ _ => true⟩ s2.df.cols (s2.df.rows.getD i []) i)
          s2)).processed i) ∧
     (∀ x, x ∈ (run_batches ⟨fun _ => "x", fun _ _ => true⟩ ["Uses"]
        ⟨⟨["Uses"], [[Value.str "a"]]⟩, [], ⟨[], 0⟩⟩ [[0]]).processed ↔
        x ∈ ([] : List Nat) ∨ x ∈ ([[0]] : List (List Nat)).flatten) ∧
     (∀ i ∈ ([[0]] : List (List Nat)).flatten, ∀ c,
        table_at (run_batches ⟨fun _ => "x", fun _ _ => true⟩ ["Uses"]
          ⟨⟨["Uses"], [[Value.str "a"]]⟩, [], ⟨[], 0⟩⟩ [[0]]).df i c =
          table_at (⟨["Uses"], [[Value.str "a"]]⟩ : Table) i c ∨
        ∃ pf, table_at (run_batches ⟨fun _ => "x", fun _ _ => true⟩ ["Uses"]
          ⟨⟨["Uses"], [[Value.str "a"]]⟩, [], ⟨[], 0⟩⟩ [[0]]).df i c =
          (paraphrase_field (fun _ => "x") pf
            (table_at (⟨["Uses"], [[Value.str "a"]]⟩ : Table) i c) c).1) ∧
     (∀ i ∈ ([[0]] : List (List Nat)).flatten, ∀ c, (fun (_ : Nat) (_ : String) => true) i c = true →
        table_at (run_batches ⟨fun _ => "x", fun _ _ => true⟩ ["Uses"]
          ⟨⟨["Uses"], [[Value.str "a"]]⟩, [], ⟨[], 0⟩⟩ [[0]]).df i c =
          table_at (⟨["Uses"], [[Value.str "a"]]⟩ : Table) i c)) :=
  ⟨by decide,
   C3_rows_complete_or_fallback ⟨fun _ => "x", fun _ _ => true⟩ ["Uses"]
     ⟨⟨["Uses"], [[Value.str "a"]]⟩, [], ⟨[], 0⟩⟩ [[0]] (by decide)⟩

end Paraphrase
